import Mathlib

/-!
Verification of the flat-file ingestion pipeline (answers/ingest_data.py,
answers/utils.py): parsing, natural-key deduplication, conflict-skipping
merge-upsert, sentinel-filtered aggregation, and the paginated query service.

Machine integers (Postgres int4/bigint) are modelled as Int; SQL numeric as ℚ.
Tables are modelled as lists of rows in insertion order; the primary key of a
table is given by an explicit key function.
-/

/-- The sentinel value meaning "missing measurement" in the raw data
(ingest_data.py, generate_avg_table: the literal -9999 in the FILTER clauses). -/
def sentinel : Int := -9999

/-- YLD_COLS from ingest_data.py line 27: YEAR, TOTAL_CORN_GRAIN_YIELD_MT. -/
def yldCols : List String := ["YEAR", "TOTAL_CORN_GRAIN_YIELD_MT"]

/-- One parsed record, as produced by `ingest_data_helper`: the stem of the file
it came from (the FILE column added on line 65) together with the field values
of the line in declared column order. A missing field (pandas NaN) is `none`. -/
structure Row where
  file : String
  fields : List (Option String)
deriving DecidableEq, Repr

/-- One raw input file: its name and its lines, each line already tokenized on
the tab separator used by `pd.read_csv` with the declared column names
(line 64). -/
structure RawFile where
  name : String
  rows : List (List String)
deriving DecidableEq, Repr

/-- Python `Path(file).stem` (line 65): the file name with its final ".txt"
extension removed. The ingestion only ever applies it to names that passed the
endswith ".txt" filter of line 45, so stripping the last 4 characters is
exactly what `Path.stem` returns on those names. -/
def stem (s : String) : String := s.dropRight 4

/-- The dedup key `df.drop_duplicates` uses on the YEAR column for yield data
(lines 42, 47): the YEAR column is index 0 of YLD_COLS. -/
def yldKey (r : Row) : Option (Option String) := r.fields[0]?

/-- One line of the pandas C tokenizer given its tab-separated tokens, with
`ncols` the declared name count and `w` the expected width the tokenizer
established from the first line of the file. A line with more fields than `w`
raises ParserError ("Expected w fields, saw more"); a line with at most `w`
fields is padded with NaN (here `none`) up to the full column count. When the
file is wider than the declared names (`w > ncols`) no error is raised: the
extra leading columns become the index of the frame and the declared names
take the trailing `ncols` columns; the index is discarded again by
`to_csv(index=False)` on upload, so a record keeps the named columns only. -/
def parseLine (w ncols : Nat) (fs : List String) : Except String (List (Option String)) :=
  if w < fs.length then .error "ParserError"
  else .ok ((fs.map some ++ List.replicate (max w ncols - fs.length) none).drop
    (max w ncols - ncols))

/-- All lines of one file through `parseLine` at a fixed expected width; the
first failure aborts the whole read, exactly as the pandas exception
propagates out of `read_csv`. -/
def parseRowsAux (w ncols : Nat) : List (List String) → Except String (List (List (Option String)))
  | [] => .ok []
  | l :: ls =>
    match parseLine w ncols l with
    | .error e => .error e
    | .ok r =>
      match parseRowsAux w ncols ls with
      | .error e => .error e
      | .ok rs => .ok (r :: rs)

/-- One whole file through the tokenizer, the expected width taken from the
field count of the first line of the file, as `read_csv` establishes it. -/
def parseRows (ncols : Nat) (rows : List (List String)) :
    Except String (List (List (Option String))) :=
  parseRowsAux (rows.headD []).length ncols rows

/-- The method `Ingestor.ingest_data_helper` (lines 59-66): read one csv as
records and tag each with the FILE column, the stem of the file name. -/
def ingestDataHelper (ncols : Nat) (f : RawFile) : Except String (List Row) :=
  match parseRows ncols f.rows with
  | .error e => .error e
  | .ok rs => .ok (rs.map fun fs => ⟨stem f.name, fs⟩)

/-- The concatenation `pd.concat` over the per-file comprehension (line 46):
the records of the files concatenated in the order of the file list, which is
the raw `os.listdir` order — the code applies no sort. An exception from any
single file aborts the whole concatenation. -/
def concatFiles (ncols : Nat) : List RawFile → Except String (List Row)
  | [] => .ok []
  | f :: fs =>
    match ingestDataHelper ncols f with
    | .error e => .error e
    | .ok rs =>
      match concatFiles ncols fs with
      | .error e => .error e
      | .ok rest => .ok (rs ++ rest)

/-- The dedup step `df.drop_duplicates(keys)` (line 47) with the pandas default
keep=first: keep each record whose key was not seen earlier in the sequence.
Written with an explicit seen-keys accumulator so it is structurally
recursive. -/
def dedupFirstAux {α κ : Type} [DecidableEq κ] (key : α → κ) (seen : List κ) :
    List α → List α
  | [] => []
  | r :: rs =>
    if key r ∈ seen then dedupFirstAux key seen rs
    else r :: dedupFirstAux key (key r :: seen) rs

/-- The deduplicator: one record per natural key, first occurrence kept. -/
def dedupFirst {α κ : Type} [DecidableEq κ] (key : α → κ) (l : List α) : List α :=
  dedupFirstAux key [] l

/-- The method `Ingestor.ingest_data` up to the database write (lines 40-54):
list the directory (in the unspecified `os.listdir` order, ".txt" files only —
the caller passes the listing), concatenate the records of every file, and
drop duplicate natural keys keeping the first occurrence. -/
def ingestData {κ : Type} [DecidableEq κ] (ncols : Nat) (key : Row → κ)
    (files : List RawFile) : Except String (List Row) :=
  match concatFiles ncols files with
  | .error e => .error e
  | .ok rs => .ok (dedupFirst key rs)

/-- One step of `INSERT INTO base SELECT * FROM tmp_table ON CONFLICT DO
NOTHING` (lines 110-113): append the row unless some row with its primary key
is already present. -/
def insertIfAbsent {α κ : Type} [DecidableEq κ] (key : α → κ) (base : List α) (r : α) :
    List α :=
  if base.any (fun x => key x = key r) then base else base ++ [r]

/-- The whole conflict-skipping merge of the staged rows into the base table:
rows are offered in staging order; a row whose key is already present (in the
original table or among the rows inserted before it) is skipped. -/
def mergeInsert {α κ : Type} [DecidableEq κ] (key : α → κ) (base staged : List α) :
    List α :=
  staged.foldl (insertIfAbsent key) base

/-- The stored row for a natural key: the first row of the table carrying that
key (a table reached only through `mergeInsert` has at most one). -/
def findByKey {α κ : Type} [DecidableEq κ] (key : α → κ) (k : κ) (l : List α) : Option α :=
  l.find? (fun x => key x = k)

/-- The method `Ingestor.upload_to_db` (lines 85-123) as seen from the base
table. The staging copy and the merge are one SQL script, `BEGIN; CREATE TEMP
TABLE ...; COPY ...; INSERT ... ON CONFLICT DO NOTHING; COMMIT;`, run by a
single `copy_expert` call; by the transaction semantics of the storage engine
the script either commits as a whole or rolls back as a whole. `txFails`
selects the failure outcome: the base table then stays exactly as it was. -/
def uploadToDb {α κ : Type} [DecidableEq κ] (key : α → κ) (txFails : Bool)
    (base staged : List α) : List α :=
  if txFails then base else mergeInsert key base staged

/-- One row of the weather base table wx_schema.wx_data as the aggregation
query reads it (lines 147-162): the grouping attributes STATION_ID and
EXTRACT(YEAR FROM DATE), and the three int4 measurement columns. -/
structure WxRow where
  stationId : String
  year : Int
  maxTemp : Int
  minTemp : Int
  precip : Int
deriving DecidableEq, Repr

/-- One row of wx_schema.avg_table (lines 131-140): the three aggregate columns
are int4 and nullable; a SQL NULL is `none`. -/
structure AvgRow where
  avgMaxTemp : Option Int
  avgMinTemp : Option Int
  totalPrecipitation : Option Int
deriving DecidableEq, Repr

/-- SQL `AVG(col) FILTER (WHERE col <> -9999)` over the column of one group:
the mean, as SQL numeric, of the non-sentinel inputs; NULL when no input
survives the filter. -/
def sqlAvgFilter (vals : List Int) : Option ℚ :=
  let kept := vals.filter (fun v => v ≠ sentinel)
  if kept.isEmpty then none else some ((kept.sum : ℚ) / kept.length)

/-- SQL `SUM(col) FILTER (WHERE col <> -9999)` over the column of one group:
the sum of the non-sentinel inputs; NULL when no input survives the filter. -/
def sqlSumFilter (vals : List Int) : Option Int :=
  let kept := vals.filter (fun v => v ≠ sentinel)
  if kept.isEmpty then none else some kept.sum

/-- The numeric to int4 assignment cast of the storage engine, applied when the
aggregate SELECT is inserted into the int4 columns of avg_table: round to the
nearest integer, ties away from zero. -/
def pgRound (q : ℚ) : Int := if 0 ≤ q then ⌊q + 1 / 2⌋ else ⌈q - 1 / 2⌉

/-- Integer division as SQL performs it for bigint operands, produced by
`SUM(...) / 100` (line 155): truncation toward zero. -/
def sqlIntDiv (a b : Int) : Int := Int.tdiv a b

/-- The aggregate SELECT of `generate_avg_table` (lines 147-162) on one group:
`AVG(MAX_TEMP_1_10_DEG_C) FILTER (WHERE <> -9999) / 10`,
`AVG(MIN_TEMP_1_10_DEG_C) FILTER (WHERE <> -9999) / 10`,
`SUM(PRECIPITATION_1_10_mm) FILTER (WHERE <> -9999) / 100`,
each landing in an int4 column of avg_table. -/
def generateAvgRow (g : List WxRow) : AvgRow :=
  { avgMaxTemp := (sqlAvgFilter (g.map fun r => r.maxTemp)).map fun a => pgRound (a / 10)
    avgMinTemp := (sqlAvgFilter (g.map fun r => r.minTemp)).map fun a => pgRound (a / 10)
    totalPrecipitation := (sqlSumFilter (g.map fun r => r.precip)).map fun s => sqlIntDiv s 100 }

/-- Grouping per `GROUP BY STATION_ID, EXTRACT(YEAR FROM DATE)` (lines
158-160): the rows of the base table belonging to one group. -/
def groupRows (t : List WxRow) (st : String) (y : Int) : List WxRow :=
  t.filter fun r => r.stationId = st ∧ r.year = y

/-- The avg_table row `generate_avg_table` computes for one (station, year)
group of the base table. -/
def avgRowFor (t : List WxRow) (st : String) (y : Int) : AvgRow :=
  generateAvgRow (groupRows t st y)

/-- A row of a queried table, for the query service: an association of column
names to stored values, as the RealDictCursor returns it. -/
abbrev QRow := List (String × String)

/-- The function `generate_where_clause` (utils.py lines 17-26): drop the
filters whose value is absent; the clause then uses the first remaining filter
and, when a second remains, that one as well — any further entries are
ignored. -/
def whereConds (conds : List (String × Option String)) : List (String × String) :=
  ((conds.filterMap fun c => c.2.map fun v => (c.1, v)).take 2)

/-- Whether a row satisfies every retained equality filter col = value
(exact string match, conjunction of the at-most-two conditions). -/
def rowMatches (cs : List (String × String)) (row : QRow) : Bool :=
  cs.all fun c => row.lookup c.1 = some c.2

/-- The function `get_data` (utils.py lines 29-41) without pagination: all rows
of the table satisfying the WHERE clause. -/
def getData (t : List QRow) (cs : List (String × String)) : List QRow :=
  t.filter (rowMatches cs)

/-- Modelled from the spec: the HTTP route handlers that call `get_data` and
assemble the response payload are not under the provided sources (only
utils.py and the end-to-end tests are). Per the spec they return
`{count, offset, results}` where count is the total of matching rows
unfiltered by pagination (a COUNT(*) call of `get_data`) and results is the
page `OFFSET offset LIMIT limit` of the matching rows. -/
structure Payload where
  count : Nat
  offset : Nat
  results : List QRow
deriving DecidableEq, Repr

/-- Modelled from the spec: one read endpoint. The count comes from
`get_data(..., count=True)`; the results page comes from `get_data` with the
pagination clause `LIMIT limit OFFSET offset`. -/
def endpointPayload (t : List QRow) (conds : List (String × Option String))
    (offset limit : Nat) : Payload :=
  let matching := getData t (whereConds conds)
  { count := matching.length
    offset := offset
    results := (matching.drop offset).take limit }

/-- Two concrete yield-domain records sharing the natural key YEAR = 2000 but
carrying different payloads (and coming from different files). -/
def rowY10 : Row := ⟨"a", [some "2000", some "10"]⟩

/-- The second record with the duplicate key, payload 20. -/
def rowY20 : Row := ⟨"b", [some "2000", some "20"]⟩

theorem mergeInsert_cons {α κ : Type} [DecidableEq κ] (key : α → κ) (base : List α)
    (r : α) (rs : List α) :
    mergeInsert key base (r :: rs) = mergeInsert key (insertIfAbsent key base r) rs := rfl

theorem mergeInsert_eq_append {α κ : Type} [DecidableEq κ] (key : α → κ)
    (staged : List α) (base : List α) :
    ∃ t, mergeInsert key base staged = base ++ t ∧
      ∀ x ∈ t, x ∈ staged ∧ key x ∉ base.map key := by
  induction staged generalizing base with
  | nil => exact ⟨[], by simp [mergeInsert]⟩
  | cons r rs ih =>
    rw [mergeInsert_cons]
    by_cases h : (base.any fun x => key x = key r) = true
    · have hb : insertIfAbsent key base r = base := by simp [insertIfAbsent, h]
      rw [hb]
      obtain ⟨t, ht, hprop⟩ := ih base
      exact ⟨t, ht, fun x hx => ⟨List.mem_cons_of_mem _ (hprop x hx).1, (hprop x hx).2⟩⟩
    · have hb : insertIfAbsent key base r = base ++ [r] := by simp [insertIfAbsent, h]
      rw [hb]
      obtain ⟨t, ht, hprop⟩ := ih (base ++ [r])
      refine ⟨r :: t, by simpa using ht, ?_⟩
      intro x hx
      rcases List.mem_cons.mp hx with rfl | hx
      · refine ⟨List.mem_cons_self _ _, ?_⟩
        simp only [List.any_eq_true, decide_eq_true_eq, not_exists, not_and] at h
        simp only [List.mem_map, not_exists, not_and]
        exact fun y hy => h y hy
      · have hp := hprop x hx
        exact ⟨List.mem_cons_of_mem _ hp.1,
          fun hm => hp.2 (by rw [List.map_append]; exact List.mem_append_left _ hm)⟩

theorem mergeInsert_of_forall_mem {α κ : Type} [DecidableEq κ] (key : α → κ)
    (base staged : List α) (h : ∀ r ∈ staged, key r ∈ base.map key) :
    mergeInsert key base staged = base := by
  induction staged with
  | nil => rfl
  | cons r rs ih =>
    obtain ⟨x, hx, hkx⟩ := List.mem_map.mp (h r (List.mem_cons_self _ _))
    have hany : (base.any fun y => key y = key r) = true :=
      List.any_eq_true.mpr ⟨x, hx, by simp [hkx]⟩
    rw [mergeInsert_cons]
    have hb : insertIfAbsent key base r = base := by simp [insertIfAbsent, hany]
    rw [hb]
    exact ih fun r' hr' => h r' (List.mem_cons_of_mem _ hr')

theorem key_mem_mergeInsert {α κ : Type} [DecidableEq κ] (key : α → κ)
    (staged base : List α) : ∀ r ∈ staged, key r ∈ (mergeInsert key base staged).map key := by
  induction staged generalizing base with
  | nil => simp
  | cons r rs ih =>
    intro x hx
    rw [mergeInsert_cons]
    rcases List.mem_cons.mp hx with rfl | hx
    · have h1 : key x ∈ (insertIfAbsent key base x).map key := by
        by_cases h : (base.any fun y => key y = key x) = true
        · obtain ⟨y, hy, hky⟩ := List.any_eq_true.mp h
          simp only [insertIfAbsent, h, if_true]
          exact List.mem_map.mpr ⟨y, hy, by simpa using hky⟩
        · simp [insertIfAbsent, h]
      obtain ⟨t, ht, -⟩ := mergeInsert_eq_append key rs (insertIfAbsent key base x)
      rw [ht, List.map_append]
      exact List.mem_append_left _ h1
    · exact ih (insertIfAbsent key base r) x hx

/-- C1. Re-running the merge of the same staged record set against the base
table is a no-op: the base table after the second `upload_to_db` is the very
table the first one produced (hence the same row count), and a run whose
staged records all carry keys already present adds no row and changes nothing. -/
theorem ingestion_idempotent {α κ : Type} [DecidableEq κ] (key : α → κ)
    (base staged : List α) :
    mergeInsert key (mergeInsert key base staged) staged = mergeInsert key base staged ∧
    (mergeInsert key (mergeInsert key base staged) staged).length
      = (mergeInsert key base staged).length ∧
    ((∀ r ∈ staged, key r ∈ base.map key) → mergeInsert key base staged = base) := by
  have hfix : mergeInsert key (mergeInsert key base staged) staged
      = mergeInsert key base staged :=
    mergeInsert_of_forall_mem key _ staged (key_mem_mergeInsert key staged base)
  exact ⟨hfix, by rw [hfix], fun h => mergeInsert_of_forall_mem key base staged h⟩

/-- C1 witness: re-ingesting yield year 2000 into a base table that already
holds a row for year 2000 leaves the table exactly as it was. -/
theorem ingestion_idempotent_witness :
    mergeInsert yldKey [rowY10] [rowY20] = [rowY10] :=
  (ingestion_idempotent yldKey [rowY10] [rowY20]).2.2 (by decide)

/-- C3. The conflict-skipping merge never touches a stored row: for every
natural key already present in the base table the stored row for that key is
unchanged by the merge, and every row of the merged table is either an original
base-table row or a staged row whose key was absent from the base table. -/
theorem merge_conflict_skip {α κ : Type} [DecidableEq κ] (key : α → κ)
    (base staged : List α) :
    (∀ k ∈ base.map key,
        findByKey key k (mergeInsert key base staged) = findByKey key k base) ∧
    (∀ x ∈ mergeInsert key base staged,
        x ∈ base ∨ (x ∈ staged ∧ key x ∉ base.map key)) := by
  obtain ⟨t, ht, hprop⟩ := mergeInsert_eq_append key staged base
  constructor
  · intro k hk
    rw [ht, findByKey, findByKey, List.find?_append]
    obtain ⟨x, hx, hkx⟩ := List.mem_map.mp hk
    have hsome : (base.find? fun y => key y = k).isSome =  true :=
      List.find?_isSome.mpr ⟨x, hx, decide_eq_true hkx⟩
    obtain ⟨v, hv⟩ := Option.isSome_iff_exists.mp hsome
    rw [hv]
    rfl
  · intro x hx
    rw [ht] at hx
    rcases List.mem_append.mp hx with hx | hx
    · exact Or.inl hx
    · exact Or.inr (hprop x hx)

/-- C3 witness: with a row for yield year 2000 already stored, merging a
modified record with the same key leaves the value of the stored row
unchanged. -/
theorem merge_conflict_skip_witness :
    findByKey yldKey (yldKey rowY10) (mergeInsert yldKey [rowY10] [rowY20])
      = findByKey yldKey (yldKey rowY10) [rowY10] :=
  (merge_conflict_skip yldKey [rowY10] [rowY20]).1 (yldKey rowY10) (by decide)

/-- C5. The method `upload_to_db` is all-or-nothing for the base table: a
failing run leaves the base table exactly as it was, and whatever the outcome
the row count of the base table never decreases. -/
theorem upload_atomic_and_monotone {α κ : Type} [DecidableEq κ] (key : α → κ)
    (base staged : List α) (txFails : Bool) :
    uploadToDb key true base staged = base ∧
    base.length ≤ (uploadToDb key txFails base staged).length := by
  refine ⟨rfl, ?_⟩
  cases txFails with
  | true => exact Nat.le.refl
  | false =>
    obtain ⟨t, ht, -⟩ := mergeInsert_eq_append key staged base
    show base.length ≤ (mergeInsert key base staged).length
    rw [ht, List.length_append]
    exact Nat.le_add_right _ _

theorem dedupFirstAux_find? {α κ : Type} [DecidableEq κ] (key : α → κ) (l : List α) :
    ∀ (seen : List κ) (k : κ), k ∉ seen →
      (dedupFirstAux key seen l).find? (fun x => key x = k)
        = l.find? (fun x => key x = k) := by
  induction l with
  | nil => intro seen k _; rfl
  | cons r rs ih =>
    intro seen k hk
    by_cases hr : key r ∈ seen
    · have hek : key r ≠ k := fun e => hk (e ▸ hr)
      rw [dedupFirstAux, if_pos hr]
      simp only [List.find?, decide_eq_false hek]
      exact ih seen k hk
    · rw [dedupFirstAux, if_neg hr]
      by_cases hek : key r = k
      · simp only [List.find?, decide_eq_true hek]
      · simp only [List.find?, decide_eq_false hek]
        refine ih (key r :: seen) k ?_
        intro hmem
        rcases List.mem_cons.mp hmem with e | e
        · exact hek e.symm
        · exact hk e

theorem dedupFirstAux_fresh_nodup {α κ : Type} [DecidableEq κ] (key : α → κ)
    (l : List α) : ∀ seen : List κ,
      (∀ x ∈ dedupFirstAux key seen l, key x ∉ seen) ∧
      ((dedupFirstAux key seen l).map key).Nodup := by
  induction l with
  | nil => intro seen; simp [dedupFirstAux]
  | cons r rs ih =>
    intro seen
    by_cases hr : key r ∈ seen
    · rw [dedupFirstAux, if_pos hr]
      exact ih seen
    · rw [dedupFirstAux, if_neg hr]
      obtain ⟨hfresh, hnodup⟩ := ih (key r :: seen)
      refine ⟨?_, ?_⟩
      · intro x hx
        rcases List.mem_cons.mp hx with rfl | hx
        · exact hr
        · exact fun hs => hfresh x hx (List.mem_cons_of_mem _ hs)
      · rw [List.map_cons, List.nodup_cons]
        refine ⟨?_, hnodup⟩
        intro hmem
        obtain ⟨x, hx, hkx⟩ := List.mem_map.mp hmem
        exact hfresh x hx (hkx ▸ List.mem_cons_self _ _)

/-- C2 counterexample: two yield records share the natural key YEAR = 2000 with
different payloads; the deduplicator keeps the FIRST-seen record, not the
last-seen one the claim designates. -/
theorem dedup_last_seen_fails :
    yldKey rowY10 = yldKey rowY20 ∧ rowY10 ≠ rowY20 ∧
    dedupFirst yldKey [rowY10, rowY20] = [rowY10] ∧
    dedupFirst yldKey [rowY10, rowY20] ≠ [rowY20] := by
  refine ⟨rfl, by decide, rfl, by decide⟩

/-- C2 amended: the deduplicator outputs exactly one record per natural key
(the surviving keys are pairwise distinct yet cover exactly the keys of the
input), and when several records share a key the FIRST-seen record in parser
order is the one that survives (the stored record for every key is the first
input record with that key). -/
theorem dedup_first_seen_wins {α κ : Type} [DecidableEq κ] (key : α → κ)
    (l : List α) (k : κ) :
    ((dedupFirst key l).map key).Nodup ∧
    findByKey key k (dedupFirst key l) = findByKey key k l ∧
    (k ∈ (dedupFirst key l).map key ↔ k ∈ l.map key) := by
  have hfind : ∀ k' : κ, findByKey key k' (dedupFirst key l) = findByKey key k' l :=
    fun k' => dedupFirstAux_find? key l [] k' (List.not_mem_nil k')
  refine ⟨(dedupFirstAux_fresh_nodup key l []).2, hfind k, ?_⟩
  have hmem : ∀ L : List α,
      k ∈ L.map key ↔ (findByKey key k L).isSome = true := by
    intro L
    rw [findByKey, List.find?_isSome]
    simp only [List.mem_map, decide_eq_true_eq]
  rw [hmem, hmem, hfind k]

/-- A yield file "a.txt" holding the single line YEAR 2000, yield 10. -/
def fileY10 : RawFile := ⟨"a.txt", [["2000", "10"]]⟩

/-- A yield file "b.txt" holding the single line YEAR 2000, yield 20. -/
def fileY20 : RawFile := ⟨"b.txt", [["2000", "20"]]⟩

/-- C6: the code does not sort the directory listing (line 45 passes the raw
`os.listdir` order through), so two listings of the same file set in different
orders produce different ingestion results: with two yield files both carrying
YEAR 2000, the surviving payload is whichever file the listing put first. -/
theorem ingest_depends_on_listing_order :
    ingestData 2 yldKey [fileY10, fileY20] = .ok [⟨"a", [some "2000", some "10"]⟩] ∧
    ingestData 2 yldKey [fileY20, fileY10] = .ok [⟨"b", [some "2000", some "20"]⟩] ∧
    ingestData 2 yldKey [fileY10, fileY20] ≠ ingestData 2 yldKey [fileY20, fileY10] := by
  refine ⟨rfl, rfl, ?_⟩
  intro h
  rw [show ingestData 2 yldKey [fileY10, fileY20]
        = .ok [(⟨"a", [some "2000", some "10"]⟩ : Row)] from rfl,
      show ingestData 2 yldKey [fileY20, fileY10]
        = .ok [(⟨"b", [some "2000", some "20"]⟩ : Row)] from rfl] at h
  exact absurd (Except.ok.inj h) (by decide)

theorem sqlAvgFilter_none_iff (vals : List Int) :
    sqlAvgFilter vals = none ↔ ∀ v ∈ vals, v = sentinel := by
  rw [show (∀ v ∈ vals, v = sentinel) ↔ (vals.filter fun v => v ≠ sentinel) = [] by
    rw [List.filter_eq_nil_iff]; simp]
  unfold sqlAvgFilter
  by_cases h : (vals.filter fun v => v ≠ sentinel) = [] <;> simp [h]

theorem sqlSumFilter_none_iff (vals : List Int) :
    sqlSumFilter vals = none ↔ ∀ v ∈ vals, v = sentinel := by
  rw [show (∀ v ∈ vals, v = sentinel) ↔ (vals.filter fun v => v ≠ sentinel) = [] by
    rw [List.filter_eq_nil_iff]; simp]
  unfold sqlSumFilter
  by_cases h : (vals.filter fun v => v ≠ sentinel) = [] <;> simp [h]

theorem sqlAvgFilter_sentinel_cons (vals : List Int) :
    sqlAvgFilter (sentinel :: vals) = sqlAvgFilter vals := by
  unfold sqlAvgFilter
  simp

theorem sqlSumFilter_sentinel_cons (vals : List Int) :
    sqlSumFilter (sentinel :: vals) = sqlSumFilter vals := by
  unfold sqlSumFilter
  simp

/-- C4. In `generate_avg_table`, sentinel inputs are excluded per field: each
aggregate column is NULL exactly when every input of ITS field in the group is
the sentinel (so an all-sentinel field contributes no value — neither zero nor
the sentinel — while the other fields of the group are unaffected), and a row
whose value for a field is the sentinel leaves the aggregate of that field
unchanged. -/
theorem sentinel_excluded_per_field (g : List WxRow) :
    ((generateAvgRow g).avgMaxTemp = none ↔ ∀ r ∈ g, r.maxTemp = sentinel) ∧
    ((generateAvgRow g).avgMinTemp = none ↔ ∀ r ∈ g, r.minTemp = sentinel) ∧
    ((generateAvgRow g).totalPrecipitation = none ↔ ∀ r ∈ g, r.precip = sentinel) ∧
    (∀ r : WxRow, r.maxTemp = sentinel →
      (generateAvgRow (r :: g)).avgMaxTemp = (generateAvgRow g).avgMaxTemp) ∧
    (∀ r : WxRow, r.minTemp = sentinel →
      (generateAvgRow (r :: g)).avgMinTemp = (generateAvgRow g).avgMinTemp) ∧
    (∀ r : WxRow, r.precip = sentinel →
      (generateAvgRow (r :: g)).totalPrecipitation
        = (generateAvgRow g).totalPrecipitation) := by
  refine ⟨?_, ?_, ?_, ?_, ?_, ?_⟩
  · rw [show (generateAvgRow g).avgMaxTemp
        = (sqlAvgFilter (g.map fun r => r.maxTemp)).map (fun a => pgRound (a / 10)) from rfl,
      Option.map_eq_none', sqlAvgFilter_none_iff]
    simp [List.forall_mem_map]
  · rw [show (generateAvgRow g).avgMinTemp
        = (sqlAvgFilter (g.map fun r => r.minTemp)).map (fun a => pgRound (a / 10)) from rfl,
      Option.map_eq_none', sqlAvgFilter_none_iff]
    simp [List.forall_mem_map]
  · rw [show (generateAvgRow g).totalPrecipitation
        = (sqlSumFilter (g.map fun r => r.precip)).map (fun s => sqlIntDiv s 100) from rfl,
      Option.map_eq_none', sqlSumFilter_none_iff]
    simp [List.forall_mem_map]
  · intro r hr
    show ((sqlAvgFilter (r.maxTemp :: g.map fun x => x.maxTemp)).map
        (fun a => pgRound (a / 10)))
      = (sqlAvgFilter (g.map fun x => x.maxTemp)).map (fun a => pgRound (a / 10))
    rw [hr, sqlAvgFilter_sentinel_cons]
  · intro r hr
    show ((sqlAvgFilter (r.minTemp :: g.map fun x => x.minTemp)).map
        (fun a => pgRound (a / 10)))
      = (sqlAvgFilter (g.map fun x => x.minTemp)).map (fun a => pgRound (a / 10))
    rw [hr, sqlAvgFilter_sentinel_cons]
  · intro r hr
    show ((sqlSumFilter (r.precip :: g.map fun x => x.precip)).map
        (fun s => sqlIntDiv s 100))
      = (sqlSumFilter (g.map fun x => x.precip)).map (fun s => sqlIntDiv s 100)
    rw [hr, sqlSumFilter_sentinel_cons]

/-- A one-row weather group with max temp 100 tenths and an all-sentinel min
temp column. -/
def wxG : List WxRow := [⟨"s1", 1990, 100, sentinel, 30⟩]

/-- A weather row whose max temp is the sentinel. -/
def wxRS : WxRow := ⟨"s1", 1990, sentinel, 50, 10⟩

/-- C4 witness: adding a sentinel-valued max-temp reading to a group leaves the
max-temp aggregate of the group unchanged, and the all-sentinel min-temp
column of the group yields NULL. -/
theorem sentinel_excluded_per_field_witness :
    (generateAvgRow (wxRS :: wxG)).avgMaxTemp = (generateAvgRow wxG).avgMaxTemp ∧
    ((generateAvgRow wxG).avgMinTemp = none ↔ ∀ r ∈ wxG, r.minTemp = sentinel) :=
  ⟨(sentinel_excluded_per_field wxG).2.2.2.1 wxRS rfl,
   (sentinel_excluded_per_field wxG).2.1⟩

/-- C7. The physical-unit scaling of `generate_avg_table`: whenever the raw
filtered aggregates of a group exist, the stored summary columns are exactly the raw
mean of max temp divided by 10, the raw mean of min temp divided by 10, and
the raw precipitation sum divided by 100 (the divisions landing in int4: exact
numeric division then the int4 cast for the means, bigint integer division for
the sum). -/
theorem avg_table_divisors (g : List WxRow) (a b : ℚ) (s : Int)
    (ha : sqlAvgFilter (g.map fun r => r.maxTemp) = some a)
    (hb : sqlAvgFilter (g.map fun r => r.minTemp) = some b)
    (hs : sqlSumFilter (g.map fun r => r.precip) = some s) :
    (generateAvgRow g).avgMaxTemp = some (pgRound (a / 10)) ∧
    (generateAvgRow g).avgMinTemp = some (pgRound (b / 10)) ∧
    (generateAvgRow g).totalPrecipitation = some (sqlIntDiv s 100) := by
  simp [generateAvgRow, ha, hb, hs]

/-- A one-row weather group with max temp 25, min temp 11, precipitation 250. -/
def wxG1 : List WxRow := [⟨"s1", 1990, 25, 11, 250⟩]

/-- C7 witness: on the concrete group the divisors 10, 10 and 100 are applied. -/
theorem avg_table_divisors_witness :
    (generateAvgRow wxG1).avgMaxTemp = some (pgRound ((25 : ℚ) / 10)) ∧
    (generateAvgRow wxG1).avgMinTemp = some (pgRound ((11 : ℚ) / 10)) ∧
    (generateAvgRow wxG1).totalPrecipitation = some (sqlIntDiv 250 100) :=
  avg_table_divisors wxG1 25 11 250 (by norm_num [sqlAvgFilter, sentinel, wxG1])
    (by norm_num [sqlAvgFilter, sentinel, wxG1]) (by norm_num [sqlSumFilter, sentinel, wxG1])

theorem pgRound_near (q : ℚ) : |(pgRound q : ℚ) - q| ≤ 1 / 2 := by
  unfold pgRound
  by_cases h : 0 ≤ q
  · rw [if_pos h]
    have h1 : (↑⌊q + 1 / 2⌋ : ℚ) ≤ q + 1 / 2 := Int.floor_le _
    have h2 : q + 1 / 2 < ↑⌊q + 1 / 2⌋ + 1 := Int.lt_floor_add_one _
    rw [abs_le]
    constructor <;> linarith
  · rw [if_neg h]
    have h1 : q - 1 / 2 ≤ (↑⌈q - 1 / 2⌉ : ℚ) := Int.le_ceil _
    have h2 : (↑⌈q - 1 / 2⌉ : ℚ) < q - 1 / 2 + 1 := Int.ceil_lt_add_one _
    rw [abs_le]
    constructor <;> linarith

theorem tmod_neg_left (a b : Int) : (-a).tmod b = -(a.tmod b) := by
  rw [Int.tmod_def, Int.tmod_def, Int.neg_tdiv]
  ring

theorem tmod100_bounds (s : Int) :
    -100 < s.tmod 100 ∧ s.tmod 100 < 100 ∧
    (0 ≤ s → 0 ≤ s.tmod 100) ∧ (s ≤ 0 → s.tmod 100 ≤ 0) := by
  rcases le_or_lt 0 s with h | h
  · have h1 := Int.tmod_nonneg 100 h
    have h2 := Int.tmod_lt_of_pos s (by norm_num : (0 : Int) < 100)
    refine ⟨by linarith, h2, fun _ => h1, fun hs => ?_⟩
    have h0 : s = 0 := le_antisymm hs h
    simp [h0]
  · have hn : 0 ≤ -s := by linarith
    have h1 := Int.tmod_nonneg 100 hn
    have h2 := Int.tmod_lt_of_pos (-s) (by norm_num : (0 : Int) < 100)
    have he : s.tmod 100 = -((-s).tmod 100) := by
      have := tmod_neg_left (-s) 100
      rw [neg_neg] at this
      exact this.symm ▸ rfl
    rw [he]
    exact ⟨by linarith, by linarith, fun hs => (not_le.mpr h hs).elim, fun _ => by linarith⟩

/-- C10. Every value stored in the summary table is a whole integer: the
average temperature lands in its int4 column rounded to the nearest whole
(tenths-scaled) degree — within one half of the exact scaled mean — and the
precipitation total is the integer division of the raw sum by 100 with the
sub-unit remainder truncated toward zero. -/
theorem summary_values_integral (g : List WxRow) (a b : ℚ) (s : Int)
    (ha : sqlAvgFilter (g.map fun r => r.maxTemp) = some a)
    (hb : sqlAvgFilter (g.map fun r => r.minTemp) = some b)
    (hs : sqlSumFilter (g.map fun r => r.precip) = some s) :
    (∃ z : Int, (generateAvgRow g).avgMaxTemp = some z ∧ |(z : ℚ) - a / 10| ≤ 1 / 2) ∧
    (∃ z : Int, (generateAvgRow g).avgMinTemp = some z ∧ |(z : ℚ) - b / 10| ≤ 1 / 2) ∧
    (∃ z r : Int, (generateAvgRow g).totalPrecipitation = some z ∧
      s = 100 * z + r ∧ r.natAbs < 100 ∧ (0 ≤ s → 0 ≤ r) ∧ (s ≤ 0 → r ≤ 0)) := by
  refine ⟨⟨pgRound (a / 10), by simp [generateAvgRow, ha], pgRound_near _⟩,
    ⟨pgRound (b / 10), by simp [generateAvgRow, hb], pgRound_near _⟩, ?_⟩
  refine ⟨sqlIntDiv s 100, s.tmod 100, by simp [generateAvgRow, hs], ?_, ?_,
      (tmod100_bounds s).2.2.1, (tmod100_bounds s).2.2.2⟩
  · exact (Int.tdiv_add_tmod s 100).symm
  · obtain ⟨hb1, hb2, -, -⟩ := tmod100_bounds s
    omega

/-- C10 witness: for the concrete group the stored average max temp is the
integer 3 (2.5 rounded to the nearest, away from zero) and the stored
precipitation total is 2 with remainder 50 truncated. -/
theorem summary_values_integral_witness :
    (∃ z : Int, (generateAvgRow wxG1).avgMaxTemp = some z ∧
      |(z : ℚ) - 25 / 10| ≤ 1 / 2) ∧
    (∃ z : Int, (generateAvgRow wxG1).avgMinTemp = some z ∧
      |(z : ℚ) - 11 / 10| ≤ 1 / 2) ∧
    (∃ z r : Int, (generateAvgRow wxG1).totalPrecipitation = some z ∧
      (250 : Int) = 100 * z + r ∧ r.natAbs < 100 ∧
      ((0 : Int) ≤ 250 → 0 ≤ r) ∧ ((250 : Int) ≤ 0 → r ≤ 0)) :=
  summary_values_integral wxG1 25 11 250 (by norm_num [sqlAvgFilter, sentinel, wxG1])
    (by norm_num [sqlAvgFilter, sentinel, wxG1]) (by norm_num [sqlSumFilter, sentinel, wxG1])

/-- C9. Pagination consistency of the query service: the returned count is the
total number of rows matching the equality filters, independent of offset and
limit, and the number of returned results is min(limit, max(0, count - offset))
(Nat subtraction is the truncated max(0, count - offset)). -/
theorem pagination_consistent (t : List QRow) (conds : List (String × Option String))
    (offset limit : Nat) :
    (endpointPayload t conds offset limit).count = (getData t (whereConds conds)).length ∧
    (endpointPayload t conds offset limit).results.length
      = min limit ((endpointPayload t conds offset limit).count - offset) := by
  refine ⟨rfl, ?_⟩
  show (((getData t (whereConds conds)).drop offset).take limit).length
    = min limit ((getData t (whereConds conds)).length - offset)
  rw [List.length_take, List.length_drop]

